import Mathlib

set_option maxRecDepth 4000

/-!
Verification of the context-scraper pipeline: a shallow embedding of the
crawler, fetch/transform stage, merger, CLI configuration and concurrency
limiter, with theorems checking the specification's claims against the code.
-/

namespace ContextScraper

/-! ## URL normalization (src/crawler.py `parse_links`, src/search.py `async_get_links`)

`parse_links` cleans each extracted link with
`urlunparse(urlparse(link)._replace(fragment=""))`: for an http/https URL this
removes everything from the first `#` on.  `async_get_links` instead cleans each
link with `urljoin(url, href).rstrip("/")`: this removes all trailing `/`
characters and nothing else. -/

/-- The crawler's per-link cleanup in `parse_links`: drop the URL fragment,
i.e. keep the characters strictly before the first `#`
(`urlparse` splits at the first `#`; `urlunparse` with an empty fragment
reassembles the part before it). -/
def strip_fragment (s : String) : String :=
  ⟨s.toList.takeWhile (fun c => c ≠ '#')⟩

/-- The search module's per-link cleanup in `async_get_links`:
Python `str.rstrip("/")`, dropping every trailing `/`. -/
def rstrip_slash (s : String) : String :=
  ⟨((s.toList.reverse).dropWhile (fun c => c = '/')).reverse⟩

/-! ## Frontier crawler (src/crawler.py) -/

/-- An httpx response as seen by `extract_links_task`: `response.url` (the final
URL after redirects), the `content-type` header and the decoded body text. -/
structure HttpResponse where
  url : String
  contentType : String
  body : String
deriving DecidableEq, Repr

/-- The content-type check `"text/html" not in ctype` (negated):
substring containment of `"text/html"` in the header value. -/
def ctype_is_html (ctype : String) : Bool :=
  ctype.toList.tails.any (fun t => "text/html".toList.isPrefixOf t)

/-- `extract_links_task`: for a non-HTML response return `(url, ∅, None)`;
for an HTML response return the extracted links and the body.
HTML link extraction itself (BeautifulSoup + `parse_links`) is an external
collaborator, passed in as `extractLinks html url ↦ links`. -/
def extract_links_task (extractLinks : String → String → List String)
    (r : HttpResponse) : String × List String × Option String :=
  if ctype_is_html r.contentType then
    (r.url, extractLinks r.body r.url, some r.body)
  else
    (r.url, [], none)

/-- The allow-list filter closure `url_filter` in `crawl_for_urls`:
`any(u.startswith(p) for p in allowed_prefixes)`. -/
def url_filter (allowedPrefixes : List String) (u : String) : Bool :=
  allowedPrefixes.any (fun p => p.toList.isPrefixOf u.toList)

/-- The in-flight state of `crawl_for_urls`: the `discovered` set, the current
round's `queue`, the `process_queue` contents (pairs `(url, content)` put with
`put_nowait`), and an instrumentation counter for how many URLs have been
handed to httpx for fetching (the sum of the round batch sizes). -/
structure CrawlState where
  discovered : List String
  queue : List String
  fetchQueue : List (String × String)
  fetched : Nat
deriving DecidableEq, Repr

/-- One round of the `for depth in range(max_depth)` loop body of
`crawl_for_urls`: fetch every queued URL (`httpx_process_urls` drops failed
fetches, returning `None` results that are filtered out), aggregate links,
enqueue `(url, content)` for truthy content, filter new links by the
allow-list, drop already-discovered ones, and merge the survivors. -/
def crawl_round (web : String → Option HttpResponse)
    (extractLinks : String → String → List String)
    (allowedPrefixes : List String) (s : CrawlState) : CrawlState :=
  let results := s.queue.filterMap
    (fun u => (web u).map (extract_links_task extractLinks))
  let nextQueue0 := (results.flatMap (fun r => r.2.1)).dedup
  let fq := s.fetchQueue ++ results.filterMap (fun r =>
    match r.2.2 with
    | some c => if c ≠ "" then some (r.1, c) else none
    | none => none)
  let nextQueue1 := nextQueue0.filter (url_filter allowedPrefixes)
  let nextQueue2 := nextQueue1.filter (fun u => !(s.discovered.contains u))
  { discovered := s.discovered ++ nextQueue2
    queue := nextQueue2
    fetchQueue := fq
    fetched := s.fetched + s.queue.length }

/-- The depth loop of `crawl_for_urls`: up to `max_depth` rounds, stopping
early when the queue is empty. -/
def crawl_loop (web : String → Option HttpResponse)
    (extractLinks : String → String → List String)
    (allowedPrefixes : List String) : Nat → CrawlState → CrawlState
  | 0, s => s
  | d + 1, s =>
    if s.queue.isEmpty then s
    else crawl_loop web extractLinks allowedPrefixes d
      (crawl_round web extractLinks allowedPrefixes s)

/-- `crawl_for_urls(client, start_url, allowed_prefixes, max_depth,
process_queue, limit)`: seeds `discovered = queue = {start_url}`
unconditionally and runs the BFS rounds.  The final state carries the
discovered set (the function returns it sorted) and the process-queue
side effect. -/
def crawl_for_urls (web : String → Option HttpResponse)
    (extractLinks : String → String → List String)
    (start_url : String) (allowedPrefixes : List String)
    (max_depth : Nat) : CrawlState :=
  crawl_loop web extractLinks allowedPrefixes max_depth
    ⟨[start_url], [start_url], [], 0⟩

/-! ## Merger (src/merger.py)

`Merger._merge_text_files` and `Merger._merge_pdfs` fold over the artifact
list, accumulating a current bundle and sealing (writing out) a bundle when
appending the next artifact would exceed the byte budget (or, for PDFs, the
hard 50-item cap).  Artifacts are modelled by their OS-reported byte size plus
flags for the two fallible operations inside the loop's `try` block
(`f.stat()` and, after the seal check, `f.read_text(...)` /
`current_writer.append(f)`): a `False` flag means that call raised and the
`except` branch skipped the rest of that iteration. -/

/-- An artifact file as the merger sees it: its `stat().st_size`, whether
`stat()` succeeds, and whether the post-check read/append succeeds. -/
structure MFile where
  size : Nat
  statOk : Bool
  readOk : Bool
deriving DecidableEq, Repr

/-- The merger's in-flight accumulator: sealed bundles (most recent first)
and the current unsealed bundle. -/
structure MergeAcc where
  sealedRev : List (List MFile)
  cur : List MFile
deriving DecidableEq, Repr

/-- The separator `"\n\n" + "=" * 40 + "\n\n"` of `_merge_text_files`. -/
def text_separator : String :=
  "\n\n" ++ String.mk (List.replicate 40 '=') ++ "\n\n"

/-- `sep_size = len(separator.encode('utf-8'))`. -/
def sep_size : Nat := text_separator.utf8ByteSize

/-- `current_batch_size` of a text bundle: each appended file contributes
`file_size + sep_size`. -/
def text_batch_size (sep : Nat) (b : List MFile) : Nat :=
  (b.map (fun f => f.size)).sum + b.length * sep

/-- One iteration of the `for f in files` loop in `_merge_text_files`:
skip the file if `stat()` raises; seal the current bundle if
`current_batch_size + file_size + sep_size > max_bytes` and the bundle is
non-empty; then append the file unless `read_text` raises. -/
def text_step (maxBytes sep : Nat) (acc : MergeAcc) (f : MFile) : MergeAcc :=
  if !f.statOk then acc
  else
    let acc1 :=
      if text_batch_size sep acc.cur + f.size + sep > maxBytes && !acc.cur.isEmpty
      then ⟨acc.cur :: acc.sealedRev, []⟩
      else acc
    if !f.readOk then acc1
    else ⟨acc1.sealedRev, acc1.cur ++ [f]⟩

/-- `Merger._merge_text_files`: fold over the files, then flush the final
non-empty bundle (`if current_content: self._write_text(...)`).  Returns the
sealed bundles in output (part-number) order. -/
def merge_text_files (maxBytes : Nat) (files : List MFile) : List (List MFile) :=
  let acc := files.foldl (text_step maxBytes sep_size) ⟨[], []⟩
  (if !acc.cur.isEmpty then acc.cur :: acc.sealedRev else acc.sealedRev).reverse

/-- `current_batch_size` of a PDF bundle: the sum of the file sizes. -/
def pdf_batch_size (b : List MFile) : Nat :=
  (b.map (fun f => f.size)).sum

/-- One iteration of the `for f in files` loop in `_merge_pdfs`: skip if
`stat()` raises; seal if `(current_batch_size + file_size > max_bytes or
files_in_batch >= 50) and files_in_batch > 0`; then append unless
`current_writer.append(f)` raises. -/
def pdf_step (maxBytes : Nat) (acc : MergeAcc) (f : MFile) : MergeAcc :=
  if !f.statOk then acc
  else
    let acc1 :=
      if (pdf_batch_size acc.cur + f.size > maxBytes || acc.cur.length ≥ 50)
          && acc.cur.length > 0
      then ⟨acc.cur :: acc.sealedRev, []⟩
      else acc
    if !f.readOk then acc1
    else ⟨acc1.sealedRev, acc1.cur ++ [f]⟩

/-- `Merger._merge_pdfs`: fold over the files, then flush the final batch
(`if files_in_batch > 0: self._write_pdf(...)`). -/
def merge_pdfs (maxBytes : Nat) (files : List MFile) : List (List MFile) :=
  let acc := files.foldl (pdf_step maxBytes) ⟨[], []⟩
  (if acc.cur.length > 0 then acc.cur :: acc.sealedRev else acc.sealedRev).reverse

/-- A file for which both fallible calls succeed. -/
def MFile.ok (f : MFile) : Bool := f.statOk && f.readOk

/-- The artifacts appearing in the produced bundles, in order. -/
def bundles_content (bs : List (List MFile)) : List MFile := bs.flatMap id

/-! ## Concurrency limiter (src/utils/async_utils.py and src/async_utils.py)

Both modules define `run_async_tasks(tasks, limit, ...)`.  The semaphore
wrapper `async with semaphore: return await task` is modelled operationally:
each task is a worker that must acquire one of `limit` permits before running
and releases it on completion.  `asyncio.gather` preserves submission order,
so a worker's slot in the list is its submission index and its payload is the
value its task computes.  The new module (`src/utils/async_utils.py`) only
wraps the tasks when `limit > 0`, running a bare `gather` when `limit == 0`;
the legacy module (`src/async_utils.py`) always wraps them, building
`asyncio.Semaphore(limit)` even for `limit == 0`. -/

/-- One wrapped task: still waiting on the semaphore, running, or finished.
The payload is the value the task computes. -/
inductive WStat (α : Type) where
  | waiting (a : α)
  | running (a : α)
  | done (a : α)
deriving DecidableEq, Repr

/-- Scheduler state of one `gather` over semaphore-wrapped tasks:
free semaphore permits plus the per-task worker states (in submission
order). -/
structure PoolState (α : Type) where
  permits : Nat
  workers : List (WStat α)
deriving DecidableEq, Repr

/-- All states reachable in one scheduler step: some waiting worker acquires
a permit (only possible when a permit is free), or some running worker
finishes, releasing its permit. -/
def pool_steps {α : Type} (s : PoolState α) : List (PoolState α) :=
  (List.range s.workers.length).filterMap (fun i =>
    match s.workers.get? i with
    | some (WStat.waiting a) =>
      if s.permits > 0 then
        some ⟨s.permits - 1, s.workers.set i (WStat.running a)⟩
      else none
    | some (WStat.running a) =>
      some ⟨s.permits + 1, s.workers.set i (WStat.done a)⟩
    | _ => none)

/-- The scheduler's small-step relation. -/
def PoolStep {α : Type} (s s' : PoolState α) : Prop := s' ∈ pool_steps s

/-- The state right after `gather(*wrapped_tasks)` starts: all workers are
blocked on the semaphore, which has `limit` free permits
(`asyncio.Semaphore(limit)`). -/
def pool_init {α : Type} (limit : Nat) (tasks : List α) : PoolState α :=
  ⟨limit, tasks.map WStat.waiting⟩

/-- `gather` returns only when every wrapped task has finished. -/
def all_done {α : Type} (s : PoolState α) : Bool :=
  s.workers.all (fun w => match w with
    | WStat.done _ => true
    | _ => false)

/-- The value list `gather` returns: finished results in submission order. -/
def pool_results {α : Type} (s : PoolState α) : List α :=
  s.workers.filterMap (fun w => match w with
    | WStat.done a => some a
    | _ => none)

/-- The submission-order payloads of the workers, ignoring their states. -/
def pool_payloads {α : Type} (s : PoolState α) : List α :=
  s.workers.map (fun w => match w with
    | WStat.waiting a => a
    | WStat.running a => a
    | WStat.done a => a)

/-- How many workers hold a permit. -/
def running_count {α : Type} (s : PoolState α) : Nat :=
  s.workers.countP (fun w => match w with
    | WStat.running _ => true
    | _ => false)

/-- A Python exception observable from the embedded functions. -/
inductive PyError where
  | attributeError (msg : String)
  | valueError (msg : String)
  | eofError
  | nameError (msg : String)
deriving DecidableEq, Repr

/-- What `run_async_tasks` in src/utils/async_utils.py does before awaiting:
reject a negative limit (`ValueError`), return `[]` for no tasks, gather the
bare tasks when `limit == 0`, and otherwise gather the semaphore-wrapped
tasks starting from `pool_init limit tasks`.  `Sum.inl` is an immediate
(pure) result list; `Sum.inr` is a scheduler start state whose runs decide
the outcome. -/
def run_async_tasks_utils {α : Type} (tasks : List α) (limit : Int) :
    Except PyError (Sum (List α) (PoolState α)) :=
  if limit < 0 then Except.error (PyError.valueError "limit must non-negative")
  else if tasks.isEmpty then Except.ok (Sum.inl [])
  else if limit > 0 then Except.ok (Sum.inr (pool_init limit.toNat tasks))
  else Except.ok (Sum.inl tasks)

/-- What the legacy `run_async_tasks` in src/async_utils.py does: return `[]`
for no tasks, otherwise always gather the semaphore-wrapped tasks — even when
`limit == 0`, in which case `asyncio.Semaphore(0)` starts with no free
permit. -/
def run_async_tasks_legacy {α : Type} (tasks : List α) (limit : Nat) :
    Sum (List α) (PoolState α) :=
  if tasks.isEmpty then Sum.inl []
  else Sum.inr (pool_init limit tasks)

/-! ## Pipeline shutdown protocol (src/main.py `run_process`)

`run_process` wires crawler → fetch queue → fetch workers → merge queue →
merger.  The worker entry points it imports (`run_crawler`,
`run_fetcher_worker`, `run_merger_worker`) are absent from the source tree;
they are modelled from the spec and from `run_process`'s own comments, while
`run_process`'s visible sentinel arithmetic (`for _ in
range(config.concurrency_limit - 1): await fetch_queue.put(None)` and the
single `await merge_queue.put(None)`) is embedded directly. -/

/-- A queue payload: a real item or the `None` shutdown sentinel. -/
inductive QItem (α : Type) where
  | item (a : α)
  | sentinel
deriving DecidableEq, Repr

/-- How many sentinels a queue holds. -/
def sentinel_count {α : Type} (q : List (QItem α)) : Nat :=
  q.countP (fun x => match x with
    | QItem.sentinel => true
    | QItem.item _ => false)

/-- Modelled from the spec: `run_crawler` is imported by main.py but missing
from src/crawler.py.  Per the spec's shutdown protocol and `run_process`'s
comment "We await the crawler first. Once it finishes, it puts None in
fetch_queue", it enqueues its crawled items followed by a single shutdown
sentinel. -/
def run_crawler_enqueue {α : Type} (crawled : List α) : List (QItem α) :=
  crawled.map QItem.item ++ [QItem.sentinel]

/-- The fetch-queue contents produced by `run_process`: the crawler's output
(with its one sentinel) followed by the orchestrator's
`for _ in range(concurrency_limit - 1)` sentinel loop. -/
def run_process_fetch_queue {α : Type} (w : Nat) (crawled : List α) :
    List (QItem α) :=
  run_crawler_enqueue crawled ++ List.replicate (w - 1) QItem.sentinel

/-- Modelled from the spec: `run_fetcher_worker` is imported by main.py but
missing from src/fetcher.py.  Per the spec, a pool of `active` workers
repeatedly dequeues; an item is processed by whichever worker takes it, and a
sentinel terminates exactly the one worker that dequeues it.  Dequeueing the
shared queue front to back, this returns how many workers exited and the
items some worker processed. -/
def pool_consume {α : Type} : Nat → List (QItem α) → Nat × List α
  | _, [] => (0, [])
  | 0, _ :: _ => (0, [])
  | Nat.succ n, QItem.item a :: rest =>
    let r := pool_consume (Nat.succ n) rest
    (r.1, a :: r.2)
  | Nat.succ n, QItem.sentinel :: rest =>
    let r := pool_consume n rest
    (r.1 + 1, r.2)

/-- The merge-queue contents at shutdown: each processed item yields at most
one artifact (`transform`), the workers' artifacts land on the merge queue,
and after `asyncio.gather(*fetcher_tasks)` returns, `run_process` enqueues
its single `None` (`await merge_queue.put(None)`). -/
def run_process_merge_queue {α β : Type} (transform : α → Option β)
    (processed : List α) : List (QItem β) :=
  (processed.filterMap transform).map QItem.item ++ [QItem.sentinel]

/-- Modelled from the spec: `run_merger_worker` is imported by main.py but
missing from src/merger.py.  Per the spec ("The merger flushes any partial
batch on shutdown and exits") and the batch interface of `Merger.merge`, it
collects artifacts from the merge queue until it sees the sentinel and then
exits. -/
def merger_collect {α : Type} : List (QItem α) → List α
  | [] => []
  | QItem.sentinel :: _ => []
  | QItem.item a :: rest => a :: merger_collect rest

/-! ## Configuration (src/config.py) -/

/-- `OutputType` in src/config.py: a `str` enum with exactly the members
`PDF_RENDERED`, `PDF_TEXT`, `TXT`, `MARKDOWN`. -/
inductive OutputType where
  | PDF_RENDERED
  | PDF_TEXT
  | TXT
  | MARKDOWN
deriving DecidableEq, Repr

/-- The string value of each `OutputType` member. -/
def OutputType.value : OutputType → String
  | OutputType.PDF_RENDERED => "pdf-rendered"
  | OutputType.PDF_TEXT => "pdf-text"
  | OutputType.TXT => "txt"
  | OutputType.MARKDOWN => "md"

/-- Calling the enum on a value, `OutputType(val)`: the member with that
value, or `None` standing for the `ValueError` the caller catches. -/
def OutputType.fromValue (v : String) : Option OutputType :=
  if v = "pdf-rendered" then some OutputType.PDF_RENDERED
  else if v = "pdf-text" then some OutputType.PDF_TEXT
  else if v = "txt" then some OutputType.TXT
  else if v = "md" then some OutputType.MARKDOWN
  else none

/-- Attribute lookup `OutputType.<name>`: `some` member for the four defined
member names, `none` (an `AttributeError` at the access site) otherwise.
In particular `OutputType.PDF` does not exist. -/
def OutputType.getattr (name : String) : Option OutputType :=
  if name = "PDF_RENDERED" then some OutputType.PDF_RENDERED
  else if name = "PDF_TEXT" then some OutputType.PDF_TEXT
  else if name = "TXT" then some OutputType.TXT
  else if name = "MARKDOWN" then some OutputType.MARKDOWN
  else none

/-- `MarkdownStrategy` in src/config.py. -/
inductive MarkdownStrategy where
  | ONLY_HTML
  | ONLY_MD
  | PRIORITIZE_MD
deriving DecidableEq, Repr

/-- The string value of each `MarkdownStrategy` member. -/
def MarkdownStrategy.value : MarkdownStrategy → String
  | MarkdownStrategy.ONLY_HTML => "only-html"
  | MarkdownStrategy.ONLY_MD => "only-md"
  | MarkdownStrategy.PRIORITIZE_MD => "prioritize-md"

/-- `MarkdownStrategy(val)`: the member with that value, else `None`. -/
def MarkdownStrategy.fromValue (v : String) : Option MarkdownStrategy :=
  if v = "only-html" then some MarkdownStrategy.ONLY_HTML
  else if v = "only-md" then some MarkdownStrategy.ONLY_MD
  else if v = "prioritize-md" then some MarkdownStrategy.PRIORITIZE_MD
  else none

/-- `RunConfig` in src/config.py (paths kept as strings). -/
structure RunConfig where
  start_url : String
  allowed_prefixes : List String
  output_dir : String
  output_name : String
  output_type : OutputType
  md_strategy : MarkdownStrategy
  max_urls : Int
  max_filesize_mb : Int
  concurrency_limit : Int
deriving DecidableEq, Repr

/-- The `max_bytes` property: `max_filesize_mb * 1024 * 1024`. -/
def RunConfig.max_bytes (c : RunConfig) : Int :=
  c.max_filesize_mb * 1024 * 1024

/-! ## Fetch/transform stage (src/fetcher.py `ContentFetcher`) -/

/-- The network as `ContentFetcher` observes it through httpx and Playwright:
`head url` is the HEAD status code (`none` when the request raises), `get url`
is the body text when `client.get(url)` plus `raise_for_status()` succeeds
(`none` on any exception, e.g. a 404), and `render url` tells whether
`page.goto` + `page.pdf` succeeds. -/
structure HttpEnv where
  head : String → Option Nat
  get : String → Option String
  render : String → Bool

/-- The sibling markdown URL: `url.rstrip("/") + ".md"`. -/
def md_url (url : String) : String := rstrip_slash url ++ ".md"

/-- `ContentFetcher._resolve_target_url`: decide between `url` and `url.md`.
`ONLY_HTML` keeps the URL; `ONLY_MD` always switches to the sibling;
`PRIORITIZE_MD` issues a HEAD request for the sibling and switches only on a
200 (any other status, or an exception, falls back to the supplied URL). -/
def resolve_target_url (env : HttpEnv) (strat : MarkdownStrategy)
    (url : String) : String × Bool :=
  match strat with
  | MarkdownStrategy.ONLY_HTML => (url, false)
  | MarkdownStrategy.ONLY_MD => (md_url url, true)
  | MarkdownStrategy.PRIORITIZE_MD =>
    match env.head (md_url url) with
    | some code => if code = 200 then (md_url url, true) else (url, false)
    | none => (url, false)

/-- `ContentFetcher._fetch_single`: resolve the target URL, then either render
it (for `PDF_RENDERED`) or download it and write the converted text; any
failure yields `none` (no artifact).  The result is the artifact path
(`dest_base` plus the extension chosen by the output type). -/
def fetch_single (env : HttpEnv) (outputType : OutputType)
    (mdStrategy : MarkdownStrategy) (url : String) (destBase : String) :
    Option String :=
  let resolved := resolve_target_url env mdStrategy url
  if outputType = OutputType.PDF_RENDERED then
    if env.render resolved.1 then some (destBase ++ ".pdf") else none
  else
    match env.get resolved.1 with
    | none => none
    | some content =>
      if content = "" then none
      else if outputType = OutputType.TXT then some (destBase ++ ".txt")
      else if outputType = OutputType.MARKDOWN then some (destBase ++ ".md")
      else if outputType = OutputType.PDF_TEXT then some (destBase ++ ".txt")
      else none

/-! ## CLI configuration (src/cli.py `get_user_inputs`, src/main.py) -/

/-- The relevant pieces of `urllib.parse.urlparse`, supplied as an external
collaborator. -/
structure UrlParts where
  scheme : String
  netloc : String
  path : String
deriving DecidableEq, Repr

/-- The argparse namespace built by `parse_args`: optional flags are `none`
when not supplied. -/
structure Args where
  start_url : Option String
  prefixes : Option (List String)
  output_dir : Option String
  output_type : Option String
  md_strategy : Option String
  max_urls : Int
  max_filesize : Int
  concurrency : Int
deriving DecidableEq, Repr

/-- Python truthiness of an optional string: `None` and `""` are falsy. -/
def opt_str_truthy (o : Option String) : Option String :=
  match o with
  | some s => if s = "" then none else some s
  | none => none

/-- Python truthiness of an optional list: `None` and `[]` are falsy. -/
def opt_list_truthy (o : Option (List String)) : Option (List String) :=
  match o with
  | some l => if l.isEmpty then none else some l
  | none => none

/-- `sanitize_filename`: keep alphanumerics, space, `-`, `_`; then `strip()`. -/
def sanitize_filename (name : String) : String :=
  (String.mk (name.toList.filter
    (fun c => c.isAlpha || c.isDigit || c = ' ' || c = '-' || c = '_'))).trim

/-- One `input()` call against a finite script of replies; an exhausted
script raises `EOFError`. -/
def read_input : List String → Except PyError (String × List String)
  | [] => Except.error PyError.eofError
  | s :: rest => Except.ok (s, rest)

/-- The start-URL prompt loop: re-prompt while the stripped reply is empty. -/
def loop_start_url : List String → Except PyError (String × List String)
  | [] => Except.error PyError.eofError
  | s :: rest =>
    if s.trim ≠ "" then Except.ok (s.trim, rest) else loop_start_url rest

/-- The prefix prompt loop: collect non-empty replies; an empty reply ends
the loop once at least one prefix was given. -/
def loop_prefix_list : List String → List String →
    Except PyError (List String × List String)
  | [], _ => Except.error PyError.eofError
  | s :: rest, acc =>
    if s.trim = "" then
      if acc.isEmpty then loop_prefix_list rest acc else Except.ok (acc, rest)
    else loop_prefix_list rest (acc ++ [s.trim])

/-- The output-type prompt loop: re-prompt until `OutputType(val)` parses. -/
def loop_output_type : List String → Except PyError (String × List String)
  | [] => Except.error PyError.eofError
  | s :: rest =>
    match OutputType.fromValue s.trim with
    | some _ => Except.ok (s.trim, rest)
    | none => loop_output_type rest

/-- The markdown-strategy prompt loop: re-prompt until
`MarkdownStrategy(val)` parses. -/
def loop_md_strategy : List String → Except PyError (String × List String)
  | [] => Except.error PyError.eofError
  | s :: rest =>
    match MarkdownStrategy.fromValue s.trim with
    | some _ => Except.ok (s.trim, rest)
    | none => loop_md_strategy rest

/-- `get_user_inputs(args)`: gather the start URL, prefixes, output directory
and output type (from the flags or interactively), then run the line
`md_strat = MarkdownStrategy.ONLY_HTML if out_type == OutputType.PDF else
md_strat`.  The access `OutputType.PDF` is modelled by
`OutputType.getattr "PDF"`; its `none` case is the `AttributeError` the line
raises.  The remainder (markdown-strategy prompt, output-name derivation and
`RunConfig` construction) is embedded for structural fidelity even though it
is unreachable. -/
def get_user_inputs (urlparse : String → UrlParts) (cwd : String)
    (args : Args) (inputs : List String) : Except PyError RunConfig :=
  match (match opt_str_truthy args.start_url with
         | some s => Except.ok (s, inputs)
         | none => loop_start_url inputs) with
  | Except.error e => Except.error e
  | Except.ok (start_url, inputs1) =>
    match (match opt_list_truthy args.prefixes with
           | some ps => Except.ok (ps, inputs1)
           | none => loop_prefix_list inputs1 []) with
    | Except.error e => Except.error e
    | Except.ok (prefix_list, inputs2) =>
      let default_folder :=
        cwd ++ "/" ++ sanitize_filename (urlparse start_url).netloc
      match (match opt_str_truthy args.output_dir with
             | some d => Except.ok (d, inputs2)
             | none =>
               match read_input inputs2 with
               | Except.error e => Except.error e
               | Except.ok (s, r) => Except.ok (s.trim, r)) with
      | Except.error e => Except.error e
      | Except.ok (out_dir_str, inputs3) =>
        let output_dir :=
          if out_dir_str ≠ "" then out_dir_str else default_folder
        match (match opt_str_truthy args.output_type with
               | some t => Except.ok (t, inputs3)
               | none => loop_output_type inputs3) with
        | Except.error e => Except.error e
        | Except.ok (out_type, inputs4) =>
          match OutputType.getattr "PDF" with
          | none =>
            Except.error
              (PyError.attributeError "OutputType has no attribute PDF")
          | some pdf_member =>
            let md_init :=
              if out_type = pdf_member.value
              then some MarkdownStrategy.ONLY_HTML.value
              else opt_str_truthy args.md_strategy
            match (match md_init with
                   | some m => Except.ok (m, inputs4)
                   | none => loop_md_strategy inputs4) with
            | Except.error e => Except.error e
            | Except.ok (md_strat, _) =>
              let parts := urlparse start_url
              let name0 := sanitize_filename (parts.netloc ++ parts.path)
              let output_name := if name0 = "" then "crawled_output" else name0
              match OutputType.fromValue out_type,
                    MarkdownStrategy.fromValue md_strat with
              | some ot, some ms =>
                Except.ok
                  { start_url := start_url
                    allowed_prefixes := prefix_list
                    output_dir := output_dir
                    output_name := output_name
                    output_type := ot
                    md_strategy := ms
                    max_urls := args.max_urls
                    max_filesize_mb := args.max_filesize
                    concurrency_limit := args.concurrency }
              | _, _ => Except.error (PyError.valueError "validation error")

/-- How `run_process`'s `launch_fetcher` would start a worker. -/
inductive FetcherLaunch where
  | withBrowser
  | plain
deriving DecidableEq, Repr

/-- The branch `if config.output_type == OutputType.PDF:` inside
`launch_fetcher` in src/main.py: the comparison evaluates the missing member
`OutputType.PDF` before anything else, so the `none` case of the lookup is an
`AttributeError`. -/
def launch_fetcher_mode (cfg : RunConfig) : Except PyError FetcherLaunch :=
  match OutputType.getattr "PDF" with
  | none =>
    Except.error (PyError.attributeError "OutputType has no attribute PDF")
  | some pdf_member =>
    Except.ok (if cfg.output_type = pdf_member
               then FetcherLaunch.withBrowser
               else FetcherLaunch.plain)

/-! ## Legacy crawler (src/search.py `async_search`)

`async_search` is the older BFS crawler.  Unlike `crawl_for_urls` it applies
the allow-list to the seed itself (`if url_filter is not None and not
url_filter(url): return set()`), and its per-round filter line is broken:
`urls_to_visit = {u for u in urls_to_visit if url_filter(u)}` reads the
undefined name `urls_to_visit` (raising `NameError` whenever a filter is
supplied and a round runs) and assigns to a variable that is never used —
`discovered.update(new_links)` merges the unfiltered links. -/

/-- The rounds of `async_search`: gather every queued page's links
(`async_multi_get_links`, an external collaborator given here as
`webLinks`), drop already-seen URLs, then hit the broken filter line when a
filter was supplied, else merge the (unfiltered) survivors and recurse. -/
def async_search_loop (webLinks : String → List String) (useFilter : Bool) :
    Nat → List String → List String → Except PyError (List String)
  | 0, discovered, _ => Except.ok discovered
  | d + 1, discovered, queue =>
    if queue.isEmpty then Except.ok discovered
    else
      let new_links := ((queue.flatMap webLinks).dedup).filter
        (fun u => !(discovered.contains u))
      if useFilter then
        Except.error (PyError.nameError "name urls_to_visit is not defined")
      else
        async_search_loop webLinks useFilter d (discovered ++ new_links)
          new_links

/-- `async_search(url, depth, url_filter, num_workers)` from src/search.py:
return the empty set for a non-positive depth; strip the seed's trailing
slashes; reject a seed that fails a supplied filter (returning the empty
set); otherwise run the BFS rounds — a supplied filter is truthy inside the
loop, so the broken filter line runs. -/
def async_search (webLinks : String → List String) (url : String)
    (depth : Int) (urlFilter : Option (String → Bool)) :
    Except PyError (List String) :=
  if depth ≤ 0 then Except.ok []
  else
    let url1 := rstrip_slash url
    match urlFilter with
    | some f =>
      if !(f url1) then Except.ok []
      else async_search_loop webLinks true depth.toNat [url1] [url1]
    | none => async_search_loop webLinks false depth.toNat [url1] [url1]

/-! ## Helper lemmas -/

/-- Setting an index of a list to the value it already holds is a no-op. -/
lemma list_set_self {α : Type} (l : List α) (i : Nat) (a : α)
    (h : l.get? i = some a) : l.set i a = l := by
  induction l generalizing i with
  | nil => simp at h
  | cons x xs ih =>
    cases i with
    | zero =>
      simp at h
      simp [h]
    | succ n =>
      simp at h ⊢
      exact ih n (by simpa using h)

/-- `countP` after a single `set`, in addition form. -/
lemma list_countP_set {α : Type} (p : α → Bool) (l : List α) (i : Nat)
    (a b : α) (h : l.get? i = some a) :
    (l.set i b).countP p + (if p a then 1 else 0)
      = l.countP p + (if p b then 1 else 0) := by
  induction l generalizing i with
  | nil => simp at h
  | cons x xs ih =>
    cases i with
    | zero =>
      simp at h
      subst h
      simp [List.countP_cons]
      by_cases hpx : p x <;> by_cases hpb : p b <;> simp [hpx, hpb] <;> omega
    | succ n =>
      have h' : xs.get? n = some a := by simpa using h
      have := ih n h'
      simp [List.countP_cons]
      by_cases hx : p x <;> simp [hx] <;> omega

/-- The head surviving `dropWhile p` fails `p`. -/
lemma head_dropWhile_false {α : Type} (p : α → Bool) (l : List α) (c : α)
    (h : (l.dropWhile p).head? = some c) : p c = false := by
  induction l with
  | nil => simp [List.dropWhile] at h
  | cons x xs ih =>
    by_cases hx : p x
    · rw [List.dropWhile_cons_of_pos hx] at h
      exact ih h
    · rw [List.dropWhile_cons_of_neg hx] at h
      simp at h
      subst h
      simpa using hx

/-! ## C7: URL normalization -/

/-- C7 counterexample: the claim says URL normalization strips both the
fragment and any trailing slash.  The crawler's normalization
(`strip_fragment`, from `parse_links`) keeps the trailing slash of
`https://a.test/docs/`, and the search module's normalization
(`rstrip_slash`, from `async_get_links`) keeps the fragment of
`https://a.test/page#top`, so neither routine produces the claimed normal
form. -/
theorem url_normalization_cex :
    (strip_fragment "https://a.test/docs/").toList.getLast? = some '/' ∧
    '#' ∈ (rstrip_slash "https://a.test/page#top").toList := by
  decide

/-- C7 amended: each of the two normalization routines is idempotent;
`parse_links`' normalization removes every fragment character, and
`async_get_links`' normalization leaves no trailing slash — but neither does
both. -/
theorem url_normalization_amended (s : String) :
    strip_fragment (strip_fragment s) = strip_fragment s ∧
    rstrip_slash (rstrip_slash s) = rstrip_slash s ∧
    '#' ∉ (strip_fragment s).toList ∧
    (rstrip_slash s).toList.getLast? ≠ some '/' := by
  refine ⟨?_, ?_, ?_, ?_⟩
  · simp only [strip_fragment]
    congr 1
    exact List.takeWhile_idem
  · simp only [rstrip_slash]
    congr 1
    show ((List.dropWhile _ ((List.dropWhile _ s.toList.reverse).reverse).reverse).reverse : List Char) = _
    rw [List.reverse_reverse, List.dropWhile_idempotent]
  · intro hmem
    have := List.mem_takeWhile_imp hmem
    simp at this
  · intro hlast
    have h1 : (rstrip_slash s).toList.getLast?
        = (s.toList.reverse.dropWhile (fun c => decide (c = '/'))).head? := by
      show ((s.toList.reverse.dropWhile _).reverse).getLast? = _
      exact List.getLast?_reverse _
    rw [h1] at hlast
    have := head_dropWhile_false _ _ _ hlast
    simp at this

/-- C7 witness: the amended statement at a concrete URL. -/
theorem url_normalization_amended_witness :
    strip_fragment (strip_fragment "https://a.test/p/#x")
        = strip_fragment "https://a.test/p/#x" ∧
    rstrip_slash (rstrip_slash "https://a.test/p/#x")
        = rstrip_slash "https://a.test/p/#x" ∧
    '#' ∉ (strip_fragment "https://a.test/p/#x").toList ∧
    (rstrip_slash "https://a.test/p/#x").toList.getLast? ≠ some '/' :=
  url_normalization_amended "https://a.test/p/#x"

/-! ## C3: the missing `OutputType.PDF` member -/

/-- The enum lookup that `cli.py` line 81 and `main.py` line 57 perform. -/
lemma getattr_PDF_none : OutputType.getattr "PDF" = none := by decide

/-- C3: `get_user_inputs` can never return a `RunConfig`: for every argument
namespace and every script of interactive replies, once steps 1–4 complete it
unconditionally evaluates `out_type == OutputType.PDF`, and `OutputType` has
no member `PDF`, so the call raises `AttributeError` (when all flags are
supplied, the result is exactly that `AttributeError`); `launch_fetcher` in
`run_process` trips over the same missing member. -/
theorem get_user_inputs_always_attribute_error
    (urlparse : String → UrlParts) (cwd : String) (args : Args)
    (inputs : List String) :
    (∀ cfg, get_user_inputs urlparse cwd args inputs ≠ Except.ok cfg) ∧
    (opt_str_truthy args.start_url ≠ none →
     opt_list_truthy args.prefixes ≠ none →
     opt_str_truthy args.output_dir ≠ none →
     opt_str_truthy args.output_type ≠ none →
     get_user_inputs urlparse cwd args inputs =
       Except.error (PyError.attributeError "OutputType has no attribute PDF")) ∧
    (∀ cfg, launch_fetcher_mode cfg =
       Except.error (PyError.attributeError "OutputType has no attribute PDF")) := by
  refine ⟨?_, ?_, ?_⟩
  · intro cfg
    unfold get_user_inputs
    rw [getattr_PDF_none]
    repeat' first
      | simp
      | split
  · intro h1 h2 h3 h4
    obtain ⟨s1, hs1⟩ := Option.ne_none_iff_exists'.mp h1
    obtain ⟨s2, hs2⟩ := Option.ne_none_iff_exists'.mp h2
    obtain ⟨s3, hs3⟩ := Option.ne_none_iff_exists'.mp h3
    obtain ⟨s4, hs4⟩ := Option.ne_none_iff_exists'.mp h4
    unfold get_user_inputs
    rw [hs1, hs2, hs3, hs4, getattr_PDF_none]
  · intro cfg
    unfold launch_fetcher_mode
    rw [getattr_PDF_none]

/-- C3 witness: fully supplied flags produce the `AttributeError`. -/
theorem get_user_inputs_always_attribute_error_witness :
    get_user_inputs (fun _ => ⟨"https", "a.test", "/d"⟩) "/home/u"
      ⟨some "https://a.test", some ["https://a.test"], some "out", some "txt",
       some "only-html", 500, 99, 20⟩ [] =
      Except.error (PyError.attributeError "OutputType has no attribute PDF") :=
  (get_user_inputs_always_attribute_error (fun _ => ⟨"https", "a.test", "/d"⟩)
    "/home/u"
    ⟨some "https://a.test", some ["https://a.test"], some "out", some "txt",
     some "only-html", 500, 99, 20⟩ []).2.1
    (by decide) (by decide) (by decide) (by decide)

/-! ## Merger lemmas -/

lemma text_batch_size_append (sep : Nat) (b : List MFile) (f : MFile) :
    text_batch_size sep (b ++ [f]) = text_batch_size sep b + (f.size + sep) := by
  simp [text_batch_size, List.length_append]
  ring

lemma pdf_batch_size_append (b : List MFile) (f : MFile) :
    pdf_batch_size (b ++ [f]) = pdf_batch_size b + f.size := by
  simp [pdf_batch_size]

/-- The size invariant a text bundle maintains: within budget, or an
oversized singleton (the singleton's cost including its separator exceeds
the budget). -/
def text_bundle_ok (maxBytes : Nat) (b : List MFile) : Prop :=
  text_batch_size sep_size b ≤ maxBytes ∨
    ∃ f, b = [f] ∧ maxBytes < f.size + sep_size

/-- The size invariant a PDF bundle maintains: within budget, or an
oversized singleton. -/
def pdf_bundle_ok (maxBytes : Nat) (b : List MFile) : Prop :=
  pdf_batch_size b ≤ maxBytes ∨ ∃ f, b = [f] ∧ maxBytes < f.size

lemma text_step_preserves (maxBytes : Nat) (acc : MergeAcc) (f : MFile)
    (hs : ∀ b ∈ acc.sealedRev, text_bundle_ok maxBytes b)
    (hc : text_bundle_ok maxBytes acc.cur) :
    (∀ b ∈ (text_step maxBytes sep_size acc f).sealedRev,
        text_bundle_ok maxBytes b) ∧
      text_bundle_ok maxBytes (text_step maxBytes sep_size acc f).cur := by
  unfold text_step
  by_cases hstat : f.statOk
  · simp only [hstat, Bool.not_true, if_neg (by simp : ¬(false = true))]
    by_cases hcond : text_batch_size sep_size acc.cur + f.size + sep_size > maxBytes
        ∧ acc.cur ≠ []
    · have hcond' : (text_batch_size sep_size acc.cur + f.size + sep_size > maxBytes
          && !acc.cur.isEmpty) = true := by
        simp [hcond.1, List.isEmpty_iff, hcond.2]
      rw [if_pos hcond']
      by_cases hread : f.readOk
      · simp only [hread, Bool.not_true, if_neg (by simp : ¬(false = true))]
        refine ⟨?_, ?_⟩
        · intro b hb
          simp at hb
          rcases hb with hb | hb
          · subst hb; exact hc
          · exact hs b hb
        · by_cases hbig : f.size + sep_size ≤ maxBytes
          · left
            simpa [text_batch_size] using hbig
          · right
            exact ⟨f, by simp, by omega⟩
      · simp only [hread]
        refine ⟨?_, ?_⟩
        · intro b hb
          simp at hb
          rcases hb with hb | hb
          · subst hb; exact hc
          · exact hs b hb
        · left
          simp [text_batch_size]
    · have hcond' : (text_batch_size sep_size acc.cur + f.size + sep_size > maxBytes
          && !acc.cur.isEmpty) = false := by
        rcases not_and_or.mp hcond with h | h
        · simp [Nat.not_lt.mp (by omega : ¬(maxBytes < text_batch_size sep_size acc.cur + f.size + sep_size))]
        · simp [List.isEmpty_iff.mpr (not_not.mp h)]
      rw [if_neg (by simp [hcond'] : ¬((text_batch_size sep_size acc.cur + f.size + sep_size > maxBytes && !acc.cur.isEmpty) = true))]
      by_cases hread : f.readOk
      · simp only [hread, Bool.not_true, if_neg (by simp : ¬(false = true))]
        refine ⟨hs, ?_⟩
        rcases not_and_or.mp hcond with h | h
        · left
          rw [text_batch_size_append]
          omega
        · have hcur : acc.cur = [] := not_not.mp h
          rw [hcur]
          by_cases hbig : f.size + sep_size ≤ maxBytes
          · left
            simpa [text_batch_size] using hbig
          · right
            exact ⟨f, rfl, by omega⟩
      · simp only [hread]
        exact ⟨hs, hc⟩
  · simp only [Bool.not_eq_true] at hstat
    simp only [hstat]
    exact ⟨hs, hc⟩

lemma pdf_step_preserves (maxBytes : Nat) (acc : MergeAcc) (f : MFile)
    (hs : ∀ b ∈ acc.sealedRev, pdf_bundle_ok maxBytes b ∧ b.length ≤ 50)
    (hc : pdf_bundle_ok maxBytes acc.cur) (hlen : acc.cur.length ≤ 50) :
    (∀ b ∈ (pdf_step maxBytes acc f).sealedRev,
        pdf_bundle_ok maxBytes b ∧ b.length ≤ 50) ∧
      pdf_bundle_ok maxBytes (pdf_step maxBytes acc f).cur ∧
      (pdf_step maxBytes acc f).cur.length ≤ 50 := by
  have singleton_ok : pdf_bundle_ok maxBytes [f] := by
    by_cases hbig : f.size ≤ maxBytes
    · left
      simpa [pdf_batch_size] using hbig
    · right
      exact ⟨f, rfl, by omega⟩
  unfold pdf_step
  by_cases hstat : f.statOk
  · simp only [hstat, Bool.not_true, if_neg (by simp : ¬(false = true))]
    by_cases hcond : (pdf_batch_size acc.cur + f.size > maxBytes ∨ acc.cur.length ≥ 50)
        ∧ acc.cur.length > 0
    · have hcond' : ((pdf_batch_size acc.cur + f.size > maxBytes
          || acc.cur.length ≥ 50) && acc.cur.length > 0) = true := by
        rcases hcond.1 with h | h <;> simp [h, hcond.2]
      rw [if_pos hcond']
      have hseal : ∀ b ∈ (acc.cur :: acc.sealedRev),
          pdf_bundle_ok maxBytes b ∧ b.length ≤ 50 := by
        intro b hb
        rcases List.mem_cons.mp hb with hb | hb
        · subst hb; exact ⟨hc, hlen⟩
        · exact hs b hb
      by_cases hread : f.readOk
      · simp only [hread, Bool.not_true, if_neg (by simp : ¬(false = true))]
        exact ⟨hseal, by simpa using singleton_ok, by simp⟩
      · simp only [hread]
        exact ⟨hseal, by simp [pdf_bundle_ok, pdf_batch_size], by simp⟩
    · have hcond' : ((pdf_batch_size acc.cur + f.size > maxBytes
          || acc.cur.length ≥ 50) && acc.cur.length > 0) = false := by
        rcases not_and_or.mp hcond with h | h
        · push_neg at h
          simp only [Bool.and_eq_false_iff]
          left
          simp only [Bool.or_eq_false_iff]
          constructor
          · simp
            omega
          · simp
            omega
        · have hl0 : acc.cur.length = 0 := by omega
          simp [hl0]
      rw [if_neg (by simp [hcond'] : ¬(((pdf_batch_size acc.cur + f.size > maxBytes || acc.cur.length ≥ 50) && acc.cur.length > 0) = true))]
      by_cases hread : f.readOk
      · simp only [hread, Bool.not_true, if_neg (by simp : ¬(false = true))]
        refine ⟨hs, ?_, ?_⟩
        · rcases not_and_or.mp hcond with h | h
          · push_neg at h
            left
            rw [pdf_batch_size_append]
            omega
          · have hcur : acc.cur = [] := by
              cases hmt : acc.cur with
              | nil => rfl
              | cons x xs => exfalso; apply h; rw [hmt]; simp
            rw [hcur]
            simpa using singleton_ok
        · rcases not_and_or.mp hcond with h | h
          · push_neg at h
            simp
            omega
          · have hcur : acc.cur = [] := by
              cases hmt : acc.cur with
              | nil => rfl
              | cons x xs => exfalso; apply h; rw [hmt]; simp
            simp [hcur]
      · simp only [hread]
        exact ⟨hs, hc, hlen⟩
  · simp only [Bool.not_eq_true] at hstat
    simp only [hstat]
    exact ⟨hs, hc, hlen⟩

lemma text_fold_inv (maxBytes : Nat) (files : List MFile) :
    ∀ acc : MergeAcc,
      (∀ b ∈ acc.sealedRev, text_bundle_ok maxBytes b) →
      text_bundle_ok maxBytes acc.cur →
      (∀ b ∈ (files.foldl (text_step maxBytes sep_size) acc).sealedRev,
          text_bundle_ok maxBytes b) ∧
        text_bundle_ok maxBytes
          (files.foldl (text_step maxBytes sep_size) acc).cur := by
  induction files with
  | nil => intro acc hs hc; exact ⟨hs, hc⟩
  | cons f fs ih =>
    intro acc hs hc
    rw [List.foldl_cons]
    have h := text_step_preserves maxBytes acc f hs hc
    exact ih _ h.1 h.2

lemma pdf_fold_inv (maxBytes : Nat) (files : List MFile) :
    ∀ acc : MergeAcc,
      (∀ b ∈ acc.sealedRev, pdf_bundle_ok maxBytes b ∧ b.length ≤ 50) →
      pdf_bundle_ok maxBytes acc.cur → acc.cur.length ≤ 50 →
      (∀ b ∈ (files.foldl (pdf_step maxBytes) acc).sealedRev,
          pdf_bundle_ok maxBytes b ∧ b.length ≤ 50) ∧
        pdf_bundle_ok maxBytes (files.foldl (pdf_step maxBytes) acc).cur ∧
        (files.foldl (pdf_step maxBytes) acc).cur.length ≤ 50 := by
  induction files with
  | nil => intro acc hs hc hl; exact ⟨hs, hc, hl⟩
  | cons f fs ih =>
    intro acc hs hc hl
    rw [List.foldl_cons]
    have h := pdf_step_preserves maxBytes acc f hs hc hl
    exact ih _ h.1 h.2.1 h.2.2

/-- All artifacts currently held by the accumulator, in arrival order. -/
def acc_content (acc : MergeAcc) : List MFile :=
  bundles_content acc.sealedRev.reverse ++ acc.cur

lemma seal_step_content (c : Bool) (acc : MergeAcc) (f : MFile) :
    acc_content (
      if !f.statOk then acc
      else
        let acc1 := if c then (⟨acc.cur :: acc.sealedRev, []⟩ : MergeAcc) else acc
        if !f.readOk then acc1 else ⟨acc1.sealedRev, acc1.cur ++ [f]⟩)
      = acc_content acc ++ (if f.statOk && f.readOk then [f] else []) := by
  by_cases hstat : f.statOk <;> by_cases hread : f.readOk <;> by_cases hc : c <;>
    simp [hstat, hread, hc, acc_content, bundles_content]

lemma text_step_content (maxBytes sep : Nat) (acc : MergeAcc) (f : MFile) :
    acc_content (text_step maxBytes sep acc f)
      = acc_content acc ++ (if f.statOk && f.readOk then [f] else []) := by
  unfold text_step
  exact seal_step_content _ acc f

lemma pdf_step_content (maxBytes : Nat) (acc : MergeAcc) (f : MFile) :
    acc_content (pdf_step maxBytes acc f)
      = acc_content acc ++ (if f.statOk && f.readOk then [f] else []) := by
  unfold pdf_step
  exact seal_step_content _ acc f

lemma fold_content (step : MergeAcc → MFile → MergeAcc)
    (hstep : ∀ acc f, acc_content (step acc f)
      = acc_content acc ++ (if f.statOk && f.readOk then [f] else []))
    (files : List MFile) :
    ∀ acc, acc_content (files.foldl step acc)
      = acc_content acc ++ files.filter (fun f => f.statOk && f.readOk) := by
  induction files with
  | nil => intro acc; simp
  | cons f fs ih =>
    intro acc
    rw [List.foldl_cons, ih, hstep, List.filter_cons]
    by_cases hok : (f.statOk && f.readOk) = true <;> simp [hok]

lemma final_flush_content (acc : MergeAcc) :
    bundles_content
        ((if !acc.cur.isEmpty then acc.cur :: acc.sealedRev else acc.sealedRev).reverse)
      = acc_content acc := by
  by_cases hcur : acc.cur.isEmpty
  · have : acc.cur = [] := List.isEmpty_iff.mp hcur
    simp [hcur, acc_content, this]
  · simp [hcur, acc_content, bundles_content]

lemma merge_text_files_content (maxBytes : Nat) (files : List MFile) :
    bundles_content (merge_text_files maxBytes files)
      = files.filter MFile.ok := by
  unfold merge_text_files
  rw [final_flush_content, fold_content (text_step maxBytes sep_size)
    (text_step_content maxBytes sep_size) files]
  simp [acc_content, bundles_content]
  rfl

lemma merge_pdfs_content (maxBytes : Nat) (files : List MFile) :
    bundles_content (merge_pdfs maxBytes files) = files.filter MFile.ok := by
  have key : ∀ acc : MergeAcc,
      bundles_content
          ((if acc.cur.length > 0 then acc.cur :: acc.sealedRev
            else acc.sealedRev).reverse)
        = acc_content acc := by
    intro acc
    by_cases h : acc.cur = []
    · simp [h, acc_content]
    · rw [if_pos (List.length_pos.mpr h)]
      simp [acc_content, bundles_content]
  simp only [merge_pdfs]
  rw [key, fold_content (pdf_step maxBytes) (pdf_step_content maxBytes) files]
  simp [acc_content, bundles_content]
  rfl

lemma mem_merge_text_files (maxBytes : Nat) (files : List MFile)
    (b : List MFile) (hb : b ∈ merge_text_files maxBytes files) :
    text_bundle_ok maxBytes b := by
  have h := text_fold_inv maxBytes files ⟨[], []⟩ (by simp)
    (by left; simp [text_batch_size])
  unfold merge_text_files at hb
  rw [List.mem_reverse] at hb
  by_cases hcur : (files.foldl (text_step maxBytes sep_size) ⟨[], []⟩).cur.isEmpty
  · rw [if_neg (by simp [hcur])] at hb
    exact h.1 b hb
  · rw [if_pos (by simp [hcur] : (!(files.foldl (text_step maxBytes sep_size) ⟨[], []⟩).cur.isEmpty) = true)] at hb
    rcases List.mem_cons.mp hb with hb | hb
    · subst hb; exact h.2
    · exact h.1 b hb

lemma mem_merge_pdfs (maxBytes : Nat) (files : List MFile)
    (b : List MFile) (hb : b ∈ merge_pdfs maxBytes files) :
    pdf_bundle_ok maxBytes b ∧ b.length ≤ 50 := by
  have h := pdf_fold_inv maxBytes files ⟨[], []⟩ (by simp)
    (by left; simp [pdf_batch_size]) (by simp)
  unfold merge_pdfs at hb
  rw [List.mem_reverse] at hb
  by_cases hcur : (files.foldl (pdf_step maxBytes) ⟨[], []⟩).cur.length > 0
  · rw [if_pos (by simpa using hcur)] at hb
    rcases List.mem_cons.mp hb with hb | hb
    · subst hb; exact ⟨h.2.1, h.2.2⟩
    · exact h.1 b hb
  · rw [if_neg (by simpa using hcur)] at hb
    exact h.1 b hb

/-! ## C4: bundle size invariant -/

/-- C4 counterexample: with `max_bytes = 100` and two 60-byte artifacts,
`_merge_text_files` seals a singleton bundle whose accumulated size
(60-byte file plus the 44-byte separator, as the code accounts it) is 104,
exceeding the budget, while the artifact by itself (60 bytes) does not exceed
`max_bytes`.  So a sealed bundle can violate the budget without containing
an artifact that alone exceeds it, refuting the claim as stated. -/
theorem merger_bundle_size_cex :
    [({ size := 60, statOk := true, readOk := true } : MFile)] ∈
      merge_text_files 100
        [⟨60, true, true⟩, ⟨60, true, true⟩] ∧
    100 < text_batch_size sep_size [(⟨60, true, true⟩ : MFile)] ∧
    (∀ f ∈ [(⟨60, true, true⟩ : MFile)], f.size ≤ 100) := by
  refine ⟨by decide, by decide, ?_⟩
  intro f hf
  simp at hf
  subst hf
  decide

/-- C4 amended: every sealed bundle is within the byte budget or is a
singleton whose cost exceeds the budget — for text bundles the singleton's
cost includes the per-item separator overhead (so the artifact alone may be
within budget), while for PDF bundles the artifact alone exceeds it.
Oversized artifacts are appended alone and never dropped: the bundles
together contain exactly the artifacts whose `stat` and read/append calls
succeeded, in order. -/
theorem merger_bundle_size_amended (maxBytes : Nat) (files : List MFile) :
    (∀ b ∈ merge_text_files maxBytes files,
      text_batch_size sep_size b ≤ maxBytes ∨
        ∃ f, b = [f] ∧ maxBytes < f.size + sep_size) ∧
    (∀ b ∈ merge_pdfs maxBytes files,
      pdf_batch_size b ≤ maxBytes ∨ ∃ f, b = [f] ∧ maxBytes < f.size) ∧
    bundles_content (merge_text_files maxBytes files) = files.filter MFile.ok ∧
    bundles_content (merge_pdfs maxBytes files) = files.filter MFile.ok := by
  exact ⟨fun b hb => mem_merge_text_files maxBytes files b hb,
    fun b hb => (mem_merge_pdfs maxBytes files b hb).1,
    merge_text_files_content maxBytes files,
    merge_pdfs_content maxBytes files⟩

/-- C4 witness: the amended statement applied to the concrete sealed
oversized singleton produced between two small artifacts. -/
theorem merger_bundle_size_amended_witness :
    (text_batch_size sep_size [(⟨300, true, true⟩ : MFile)] ≤ 100 ∨
      ∃ f, [(⟨300, true, true⟩ : MFile)] = [f] ∧ 100 < f.size + sep_size) ∧
    (pdf_batch_size [(⟨300, true, true⟩ : MFile)] ≤ 100 ∨
      ∃ f, [(⟨300, true, true⟩ : MFile)] = [f] ∧ 100 < f.size) ∧
    bundles_content (merge_text_files 100
        [⟨10, true, true⟩, ⟨300, true, true⟩, ⟨10, true, true⟩])
      = List.filter MFile.ok
          [⟨10, true, true⟩, ⟨300, true, true⟩, ⟨10, true, true⟩] :=
  ⟨(merger_bundle_size_amended 100
      [⟨10, true, true⟩, ⟨300, true, true⟩, ⟨10, true, true⟩]).1
      [⟨300, true, true⟩] (by decide),
   (merger_bundle_size_amended 100
      [⟨10, true, true⟩, ⟨300, true, true⟩, ⟨10, true, true⟩]).2.1
      [⟨300, true, true⟩] (by decide),
   (merger_bundle_size_amended 100
      [⟨10, true, true⟩, ⟨300, true, true⟩, ⟨10, true, true⟩]).2.2.1⟩

/-! ## C10: the hard 50-item cap on PDF bundles -/

/-- C10: every bundle sealed by `_merge_pdfs` holds at most 50 artifacts,
whatever the byte budget: the batch is flushed before appending whenever
`files_in_batch >= 50`. -/
theorem merge_pdfs_item_cap (maxBytes : Nat) (files : List MFile) :
    ∀ b ∈ merge_pdfs maxBytes files, b.length ≤ 50 :=
  fun b hb => (mem_merge_pdfs maxBytes files b hb).2

/-- C10 witness: the cap applied to the first bundle of a concrete run of
51 one-byte artifacts under a generous byte budget. -/
theorem merge_pdfs_item_cap_witness :
    (List.replicate 50 (⟨1, true, true⟩ : MFile)).length ≤ 50 :=
  merge_pdfs_item_cap 1000000 (List.replicate 51 ⟨1, true, true⟩)
    (List.replicate 50 ⟨1, true, true⟩) (by decide)

/-! ## Crawler lemmas -/

/-- What is true of every pair the crawler ever puts on the process queue:
it is the final URL and body of a successfully fetched HTML response with
non-empty body. -/
def enqueued_from_html (web : String → Option HttpResponse)
    (p : String × String) : Prop :=
  ∃ u r, web u = some r ∧ ctype_is_html r.contentType = true ∧
    p = (r.url, r.body) ∧ r.body ≠ ""

lemma crawl_round_fetchQueue (web : String → Option HttpResponse)
    (extractLinks : String → String → List String)
    (allowedPrefixes : List String) (s : CrawlState) :
    ∀ p ∈ (crawl_round web extractLinks allowedPrefixes s).fetchQueue,
      p ∈ s.fetchQueue ∨ enqueued_from_html web p := by
  intro p hp
  unfold crawl_round at hp
  simp only [List.mem_append] at hp
  rcases hp with hp | hp
  · exact Or.inl hp
  · right
    rw [List.mem_filterMap] at hp
    obtain ⟨r, hr, hgr⟩ := hp
    rw [List.mem_filterMap] at hr
    obtain ⟨u, hu, hmap⟩ := hr
    obtain ⟨resp, hresp, htask⟩ := Option.map_eq_some'.mp hmap
    subst htask
    unfold extract_links_task at hgr
    by_cases hhtml : ctype_is_html resp.contentType
    · rw [if_pos hhtml] at hgr
      simp only at hgr
      by_cases hbody : resp.body ≠ ""
      · rw [if_pos hbody] at hgr
        simp at hgr
        exact ⟨u, resp, hresp, hhtml, hgr.symm, hbody⟩
      · rw [if_neg hbody] at hgr
        simp at hgr
    · rw [if_neg hhtml] at hgr
      simp at hgr

lemma crawl_loop_fetchQueue (web : String → Option HttpResponse)
    (extractLinks : String → String → List String)
    (allowedPrefixes : List String) (d : Nat) :
    ∀ s : CrawlState,
      (∀ p ∈ s.fetchQueue, enqueued_from_html web p) →
      ∀ p ∈ (crawl_loop web extractLinks allowedPrefixes d s).fetchQueue,
        enqueued_from_html web p := by
  induction d with
  | zero => intro s hs; exact hs
  | succ n ih =>
    intro s hs
    unfold crawl_loop
    by_cases hq : s.queue.isEmpty
    · rw [if_pos hq]; exact hs
    · rw [if_neg hq]
      apply ih
      intro p hp
      rcases crawl_round_fetchQueue web extractLinks allowedPrefixes s p hp with
        h | h
      · exact hs p h
      · exact h

lemma crawl_round_discovered (web : String → Option HttpResponse)
    (extractLinks : String → String → List String)
    (allowedPrefixes : List String) (s : CrawlState) :
    ∀ u ∈ (crawl_round web extractLinks allowedPrefixes s).discovered,
      u ∈ s.discovered ∨ url_filter allowedPrefixes u = true := by
  intro u hu
  unfold crawl_round at hu
  simp only [List.mem_append] at hu
  rcases hu with hu | hu
  · exact Or.inl hu
  · right
    have hu1 := List.mem_of_mem_filter hu
    exact List.of_mem_filter hu1

lemma crawl_loop_discovered (web : String → Option HttpResponse)
    (extractLinks : String → String → List String)
    (allowedPrefixes : List String) (d : Nat) (start : String) :
    ∀ s : CrawlState,
      (∀ u ∈ s.discovered, u = start ∨ url_filter allowedPrefixes u = true) →
      ∀ u ∈ (crawl_loop web extractLinks allowedPrefixes d s).discovered,
        u = start ∨ url_filter allowedPrefixes u = true := by
  induction d with
  | zero => intro s hs; exact hs
  | succ n ih =>
    intro s hs
    unfold crawl_loop
    by_cases hq : s.queue.isEmpty
    · rw [if_pos hq]; exact hs
    · rw [if_neg hq]
      apply ih
      intro u hu
      rcases crawl_round_discovered web extractLinks allowedPrefixes s u hu with
        h | h
      · exact hs u h
      · exact Or.inr h

lemma crawl_loop_discovered_mono (web : String → Option HttpResponse)
    (extractLinks : String → String → List String)
    (allowedPrefixes : List String) (d : Nat) :
    ∀ s : CrawlState, ∀ u ∈ s.discovered,
      u ∈ (crawl_loop web extractLinks allowedPrefixes d s).discovered := by
  induction d with
  | zero => intro s u hu; exact hu
  | succ n ih =>
    intro s u hu
    unfold crawl_loop
    by_cases hq : s.queue.isEmpty
    · rw [if_pos hq]; exact hu
    · rw [if_neg hq]
      apply ih
      unfold crawl_round
      simp only [List.mem_append]
      exact Or.inl hu

/-! ## C1: the URL budget -/

/-- The concrete page graph of spec scenario 1 enlarged: the seed links to
five in-scope pages, all HTML. -/
def c1_children : List String :=
  ["https://a.test/p1", "https://a.test/p2", "https://a.test/p3",
   "https://a.test/p4", "https://a.test/p5"]

/-- The web for the C1 failing input. -/
def c1_web : String → Option HttpResponse := fun u =>
  if u = "https://a.test" then some ⟨u, "text/html", "<a>root</a>"⟩
  else if u ∈ c1_children then some ⟨u, "text/html", "<p>leaf</p>"⟩
  else none

/-- The link extractor for the C1 failing input. -/
def c1_extract : String → String → List String := fun _ url =>
  if url = "https://a.test" then c1_children else []

/-- C1 failing input: `crawl_for_urls` has no `max_urls` parameter, no
`visited_count`, and no batch trimming — it bounds only the number of BFS
rounds (`max_depth`).  On a seed with five in-scope children it hands 6 URLs
to httpx within two rounds, so any URL budget below 6 (e.g. `max_urls = 3`
as in spec scenario 1) is exceeded.  (`main.py` passes `max_urls` to a
`run_crawler` that does not exist in src/crawler.py.) -/
theorem crawl_for_urls_exceeds_budget :
    (crawl_for_urls c1_web c1_extract "https://a.test" ["https://a.test"]
      2).fetched = 6 ∧
    3 < (crawl_for_urls c1_web c1_extract "https://a.test" ["https://a.test"]
      2).fetched := by
  decide

/-! ## C5: absent-content items are not forwarded -/

/-- The web for the C5 counterexample: the seed is HTML and links to a
binary (non-HTML) resource that is fetched successfully. -/
def c5_web : String → Option HttpResponse := fun u =>
  if u = "https://a.test" then some ⟨u, "text/html", "<a>bin</a>"⟩
  else if u = "https://a.test/file.bin" then
    some ⟨u, "application/octet-stream", "BIN"⟩
  else none

/-- The link extractor for the C5 counterexample. -/
def c5_extract : String → String → List String := fun _ url =>
  if url = "https://a.test" then ["https://a.test/file.bin"] else []

/-- C5 counterexample: the binary URL is fetched (it is the second of the
two fetched URLs and enters `discovered`), its `extract_links_task` result
carries `None` content, and the crawler enqueues nothing for it — the
process queue holds only the seed's pair, refuting the claim that
absent-content URLs still flow downstream. -/
theorem crawl_absent_content_cex :
    (crawl_for_urls c5_web c5_extract "https://a.test" ["https://a.test"]
      2).fetched = 2 ∧
    "https://a.test/file.bin" ∈
      (crawl_for_urls c5_web c5_extract "https://a.test" ["https://a.test"]
        2).discovered ∧
    (crawl_for_urls c5_web c5_extract "https://a.test" ["https://a.test"]
      2).fetchQueue = [("https://a.test", "<a>bin</a>")] := by
  decide

/-- C5 amended: the crawler enqueues a fetch item only for URLs whose
response was fetched, was HTML and had non-empty body; fetched URLs with
absent (`None`) content are dropped, not forwarded. -/
theorem crawl_enqueue_requires_content (web : String → Option HttpResponse)
    (extractLinks : String → String → List String) (start : String)
    (allowedPrefixes : List String) (d : Nat) :
    ∀ p ∈ (crawl_for_urls web extractLinks start allowedPrefixes d).fetchQueue,
      enqueued_from_html web p := by
  unfold crawl_for_urls
  apply crawl_loop_fetchQueue
  intro p hp
  simp at hp

/-- C5 witness: the amended statement applied to the one enqueued pair of
the counterexample crawl. -/
theorem crawl_enqueue_requires_content_witness :
    enqueued_from_html c5_web ("https://a.test", "<a>bin</a>") :=
  crawl_enqueue_requires_content c5_web c5_extract "https://a.test"
    ["https://a.test"] 2 ("https://a.test", "<a>bin</a>") (by decide)

/-! ## C6: seed exemption and allow-list filtering -/

/-- The allow-list filter of the C6 counterexample: prefix match against
`https://a.test`. -/
def c6_filter : String → Bool := fun u =>
  "https://a.test".toList.isPrefixOf u.toList

/-- The link gatherer of the C6 counterexample. -/
def c6_links : String → List String := fun _ => ["https://a.test/p1"]

/-- C6 counterexample: in the also-cited `async_search` (src/search.py) the
claim fails on both conjuncts.  A seed that fails the allow-list filter is
rejected — the crawl returns the empty set instead of accepting the seed
unconditionally (line 84).  And filtering is never applied to outbound links
before they enter `discovered`: with a filter supplied, the first round hits
the broken filter line (`urls_to_visit` is undefined) and raises
`NameError`, so no filtered crawl ever proceeds. -/
theorem crawl_seed_allow_list_cex :
    async_search c6_links "https://b.test/x" 2 (some c6_filter)
        = Except.ok [] ∧
    async_search c6_links "https://a.test" 2 (some c6_filter)
        = Except.error (PyError.nameError "name urls_to_visit is not defined") :=
  ⟨rfl, rfl⟩

/-- C6 amended: in `crawl_for_urls` the claim holds — the seed enters
`discovered` unconditionally (no allow-list check) and every other
discovered URL prefix-matches at least one allow-list pattern, because
outbound links are filtered before entering `discovered`.  In the older
`async_search` it does not hold: the seed is itself subject to a supplied
filter (a non-matching seed aborts with an empty result), and outbound
links are never filtered — any filtered crawl whose first round runs raises
`NameError` at the broken filter line (whose result would in any case be
assigned to an unused variable while `discovered.update(new_links)` merges
the unfiltered links). -/
theorem crawl_seed_allow_list_amended (web : String → Option HttpResponse)
    (extractLinks : String → String → List String) (start : String)
    (allowedPrefixes : List String) (d : Nat)
    (webLinks : String → List String) (url : String) (depth : Int)
    (f : String → Bool) :
    start ∈ (crawl_for_urls web extractLinks start allowedPrefixes
        d).discovered ∧
    (∀ u ∈ (crawl_for_urls web extractLinks start allowedPrefixes
        d).discovered, u = start ∨ url_filter allowedPrefixes u = true) ∧
    (f (rstrip_slash url) = false →
      async_search webLinks url depth (some f) = Except.ok []) ∧
    (f (rstrip_slash url) = true → 0 < depth →
      async_search webLinks url depth (some f)
        = Except.error
            (PyError.nameError "name urls_to_visit is not defined")) := by
  refine ⟨?_, ?_, ?_, ?_⟩
  · unfold crawl_for_urls
    apply crawl_loop_discovered_mono
    simp
  · unfold crawl_for_urls
    apply crawl_loop_discovered
    intro u hu
    simp at hu
    exact Or.inl hu
  · intro hf
    unfold async_search
    by_cases hd : depth ≤ 0
    · rw [if_pos hd]
    · rw [if_neg hd]
      simp [hf]
  · intro hf hdpos
    unfold async_search
    rw [if_neg (by omega : ¬depth ≤ 0)]
    simp only [hf, Bool.not_true]
    rw [if_neg (by simp : ¬((false : Bool) = true))]
    cases hn : depth.toNat with
    | zero => omega
    | succ m => simp [async_search_loop]

/-- C6 witness: the amended statement at concrete inputs — the seed of the
C1 crawl is discovered and a discovered child matches the allow-list, a
filtered-out seed makes `async_search` return the empty set, and a passing
seed makes the filtered `async_search` raise the `NameError`. -/
theorem crawl_seed_allow_list_amended_witness :
    "https://a.test" ∈ (crawl_for_urls c1_web c1_extract "https://a.test"
        ["https://a.test/"] 2).discovered ∧
    ("https://a.test/p1" = "https://a.test" ∨
      url_filter ["https://a.test/"] "https://a.test/p1" = true) ∧
    async_search c6_links "https://b.test/x" 2 (some c6_filter)
        = Except.ok [] ∧
    async_search c6_links "https://a.test" 2 (some c6_filter)
        = Except.error (PyError.nameError "name urls_to_visit is not defined") :=
  ⟨(crawl_seed_allow_list_amended c1_web c1_extract "https://a.test"
      ["https://a.test/"] 2 c6_links "https://b.test/x" 2 c6_filter).1,
   (crawl_seed_allow_list_amended c1_web c1_extract "https://a.test"
      ["https://a.test/"] 2 c6_links "https://b.test/x" 2 c6_filter).2.1
     "https://a.test/p1" (by decide),
   (crawl_seed_allow_list_amended c1_web c1_extract "https://a.test"
      ["https://a.test/"] 2 c6_links "https://b.test/x" 2 c6_filter).2.2.1
     (by decide),
   (crawl_seed_allow_list_amended c1_web c1_extract "https://a.test"
      ["https://a.test/"] 2 c6_links "https://a.test" 2 c6_filter).2.2.2
     (by decide) (by decide)⟩

/-! ## C2: shutdown protocol lemmas -/

lemma sentinel_count_append {α : Type} (a b : List (QItem α)) :
    sentinel_count (a ++ b) = sentinel_count a + sentinel_count b := by
  simp [sentinel_count, List.countP_append]

lemma sentinel_count_items {α : Type} (xs : List α) :
    sentinel_count (xs.map QItem.item) = 0 := by
  induction xs with
  | nil => rfl
  | cons x l ih => simpa [sentinel_count, List.countP_cons] using ih

lemma sentinel_count_replicate {α : Type} (n : Nat) :
    sentinel_count (List.replicate n (QItem.sentinel : QItem α)) = n := by
  induction n with
  | zero => rfl
  | succ m ih =>
    rw [List.replicate_succ]
    simpa [sentinel_count, List.countP_cons] using ih

lemma fetch_queue_eq {α : Type} (w : Nat) (hw : 1 ≤ w) (crawled : List α) :
    run_process_fetch_queue w crawled
      = crawled.map QItem.item ++ List.replicate w QItem.sentinel := by
  unfold run_process_fetch_queue run_crawler_enqueue
  rw [List.append_assoc]
  congr 1
  cases w with
  | zero => omega
  | succ m => simp [List.replicate_succ]

lemma pool_consume_items {α : Type} (n : Nat) (hn : 1 ≤ n) (xs : List α)
    (rest : List (QItem α)) :
    pool_consume n (xs.map QItem.item ++ rest)
      = ((pool_consume n rest).1, xs ++ (pool_consume n rest).2) := by
  induction xs with
  | nil => simp
  | cons x l ih =>
    cases n with
    | zero => omega
    | succ m =>
      simp only [List.map_cons, List.cons_append]
      rw [show pool_consume (m + 1) (QItem.item x :: (l.map QItem.item ++ rest))
          = ((pool_consume (m + 1) (l.map QItem.item ++ rest)).1,
             x :: (pool_consume (m + 1) (l.map QItem.item ++ rest)).2) from rfl]
      rw [ih]

lemma pool_consume_sentinels {α : Type} (n : Nat) :
    pool_consume n (List.replicate n (QItem.sentinel : QItem α)) = (n, []) := by
  induction n with
  | zero => rfl
  | succ m ih =>
    rw [List.replicate_succ]
    rw [show pool_consume (m + 1)
        (QItem.sentinel :: List.replicate m (QItem.sentinel : QItem α))
        = ((pool_consume m (List.replicate m (QItem.sentinel : QItem α))).1 + 1,
           (pool_consume m (List.replicate m (QItem.sentinel : QItem α))).2)
      from rfl]
    rw [ih]

lemma merger_collect_items {α : Type} (xs : List α) :
    merger_collect (xs.map QItem.item ++ [QItem.sentinel]) = xs := by
  induction xs with
  | nil => rfl
  | cons x l ih =>
    simp only [List.map_cons, List.cons_append]
    rw [show merger_collect (QItem.item x :: (l.map QItem.item ++ [QItem.sentinel]))
        = x :: merger_collect (l.map QItem.item ++ [QItem.sentinel]) from rfl]
    rw [ih]

/-- C2: with `W = concurrency_limit ≥ 1` fetch workers, the fetch queue
carries exactly `W` shutdown sentinels (one from the crawler, `W - 1` from
the orchestrator's loop), consuming it makes all `W` workers exit with every
crawled item processed; the merge queue carries exactly one sentinel (the
orchestrator's single `put(None)` after the workers are gathered), the
merger consumes every artifact before stopping at that sentinel, and —
when every artifact is readable — the flushed bundles contain all of them,
the final partial bundle included. -/
theorem run_process_shutdown_protocol {α : Type} (w : Nat) (crawled : List α)
    (transform : α → Option MFile) (maxBytes : Nat) (hw : 1 ≤ w) :
    sentinel_count (run_process_fetch_queue w crawled) = w ∧
    pool_consume w (run_process_fetch_queue w crawled) = (w, crawled) ∧
    sentinel_count (run_process_merge_queue transform crawled) = 1 ∧
    merger_collect (run_process_merge_queue transform crawled)
      = crawled.filterMap transform ∧
    ((∀ f ∈ crawled.filterMap transform, MFile.ok f = true) →
      bundles_content (merge_text_files maxBytes
          (merger_collect (run_process_merge_queue transform crawled)))
        = crawled.filterMap transform) := by
  refine ⟨?_, ?_, ?_, ?_, ?_⟩
  · rw [fetch_queue_eq w hw crawled, sentinel_count_append,
      sentinel_count_items, sentinel_count_replicate]
    omega
  · rw [fetch_queue_eq w hw crawled, pool_consume_items w hw crawled _,
      pool_consume_sentinels]
    simp
  · unfold run_process_merge_queue
    rw [sentinel_count_append, sentinel_count_items]
    rfl
  · unfold run_process_merge_queue
    exact merger_collect_items _
  · intro hok
    unfold run_process_merge_queue
    rw [merger_collect_items _, merge_text_files_content maxBytes _]
    exact List.filter_eq_self.mpr hok

/-- C2 witness: the protocol evaluated for two workers and two crawled
items, each transformed into a readable artifact. -/
theorem run_process_shutdown_protocol_witness :
    sentinel_count (run_process_fetch_queue 2 [1, 2]) = 2 ∧
    pool_consume 2 (run_process_fetch_queue 2 [1, 2]) = (2, [1, 2]) ∧
    sentinel_count (run_process_merge_queue
      (fun n : Nat => some (⟨n, true, true⟩ : MFile)) [1, 2]) = 1 ∧
    bundles_content (merge_text_files 1000
        (merger_collect (run_process_merge_queue
          (fun n : Nat => some (⟨n, true, true⟩ : MFile)) [1, 2])))
      = List.filterMap (fun n : Nat => some (⟨n, true, true⟩ : MFile)) [1, 2] :=
  ⟨(run_process_shutdown_protocol 2 [1, 2]
      (fun n : Nat => some ⟨n, true, true⟩) 1000 (by decide)).1,
   (run_process_shutdown_protocol 2 [1, 2]
      (fun n : Nat => some ⟨n, true, true⟩) 1000 (by decide)).2.1,
   (run_process_shutdown_protocol 2 [1, 2]
      (fun n : Nat => some ⟨n, true, true⟩) 1000 (by decide)).2.2.1,
   (run_process_shutdown_protocol 2 [1, 2]
      (fun n : Nat => some ⟨n, true, true⟩) 1000 (by decide)).2.2.2.2
      (by decide)⟩

/-! ## C9: concurrency limiter lemmas -/

/-- The payload of a worker, whatever its state. -/
def wstat_payload {α : Type} : WStat α → α
  | WStat.waiting a => a
  | WStat.running a => a
  | WStat.done a => a

/-- Whether a worker currently holds a permit. -/
def wstat_is_running {α : Type} : WStat α → Bool
  | WStat.running _ => true
  | _ => false

lemma pool_payloads_eq_map {α : Type} (s : PoolState α) :
    pool_payloads s = s.workers.map wstat_payload := rfl

lemma running_count_eq_countP {α : Type} (s : PoolState α) :
    running_count s = s.workers.countP wstat_is_running := rfl

/-- The invariant every reachable scheduler state satisfies: the payloads in
submission order are the original tasks, and the free permits plus the
running workers account for the whole semaphore. -/
def pool_inv {α : Type} (limit : Nat) (tasks : List α) (s : PoolState α) :
    Prop :=
  pool_payloads s = tasks ∧ s.permits + running_count s = limit

lemma pool_step_shape {α : Type} (s s' : PoolState α) (h : PoolStep s s') :
    ∃ i a,
      (s.workers.get? i = some (WStat.waiting a) ∧ s.permits > 0 ∧
        s' = ⟨s.permits - 1, s.workers.set i (WStat.running a)⟩) ∨
      (s.workers.get? i = some (WStat.running a) ∧
        s' = ⟨s.permits + 1, s.workers.set i (WStat.done a)⟩) := by
  unfold PoolStep pool_steps at h
  rw [List.mem_filterMap] at h
  obtain ⟨i, _, hfi⟩ := h
  rcases hw : s.workers.get? i with _ | w
  · rw [hw] at hfi
    simp at hfi
  · rw [hw] at hfi
    cases w with
    | waiting a =>
      by_cases hp : s.permits > 0
      · simp only [hp, if_true, Option.some_inj] at hfi
        exact ⟨i, a, Or.inl ⟨hw, hp, hfi.symm⟩⟩
      · simp only [hp, if_false] at hfi
        simp at hfi
    | running a =>
      simp only [Option.some_inj] at hfi
      exact ⟨i, a, Or.inr ⟨hw, hfi.symm⟩⟩
    | done a =>
      simp at hfi

lemma pool_step_inv {α : Type} (limit : Nat) (tasks : List α)
    (s s' : PoolState α) (h : PoolStep s s') (hinv : pool_inv limit tasks s) :
    pool_inv limit tasks s' := by
  obtain ⟨i, a, hcase⟩ := pool_step_shape s s' h
  obtain ⟨hpay, hcnt⟩ := hinv
  rw [pool_payloads_eq_map] at hpay
  rw [running_count_eq_countP] at hcnt
  rcases hcase with ⟨hget, hp, rfl⟩ | ⟨hget, rfl⟩
  · constructor
    · rw [pool_payloads_eq_map]
      simp only [List.map_set]
      have hmap : (s.workers.map wstat_payload).get? i = some a := by
        rw [List.get?_map, hget]
        rfl
      rw [show wstat_payload (WStat.running a) = a from rfl,
        list_set_self _ i a hmap]
      exact hpay
    · rw [running_count_eq_countP]
      have hcp := list_countP_set wstat_is_running s.workers i
        (WStat.waiting a) (WStat.running a) hget
      simp [wstat_is_running] at hcp
      simp only
      omega
  · constructor
    · rw [pool_payloads_eq_map]
      simp only [List.map_set]
      have hmap : (s.workers.map wstat_payload).get? i = some a := by
        rw [List.get?_map, hget]
        rfl
      rw [show wstat_payload (WStat.done a) = a from rfl,
        list_set_self _ i a hmap]
      exact hpay
    · rw [running_count_eq_countP]
      have hcp := list_countP_set wstat_is_running s.workers i
        (WStat.running a) (WStat.done a) hget
      simp [wstat_is_running] at hcp
      simp only
      omega

lemma pool_reach_inv {α : Type} (limit : Nat) (tasks : List α)
    (s s' : PoolState α) (h : Relation.ReflTransGen PoolStep s s')
    (hinv : pool_inv limit tasks s) : pool_inv limit tasks s' := by
  induction h with
  | refl => exact hinv
  | tail _ hstep ih => exact pool_step_inv limit tasks _ _ hstep ih

lemma pool_results_of_all_done {α : Type} (l : List (WStat α))
    (h : ∀ w ∈ l, ∃ a, w = WStat.done a) :
    l.filterMap (fun w => match w with
      | WStat.done a => some a
      | _ => none) = l.map wstat_payload := by
  induction l with
  | nil => rfl
  | cons w ws ih =>
    obtain ⟨a, rfl⟩ := h w (List.mem_cons_self w ws)
    simp only [List.filterMap_cons, List.map_cons]
    rw [ih (fun x hx => h x (List.mem_cons_of_mem _ hx))]
    rfl

lemma pool_stuck_all_done {α : Type} (limit : Nat) (tasks : List α)
    (s : PoolState α) (hst : pool_steps s = [])
    (hinv : pool_inv limit tasks s) (hpos : 0 < limit) :
    all_done s = true ∧ pool_results s = tasks := by
  have hnone := List.filterMap_eq_nil_iff.mp hst
  have hall : ∀ w ∈ s.workers, ∃ a, w = WStat.done a := by
    intro w hw
    obtain ⟨i, hi⟩ := List.mem_iff_get?.mp hw
    have hirange : i ∈ List.range s.workers.length := by
      rw [List.mem_range]
      exact List.get?_eq_some.mp hi |>.1
    have hfi := hnone i hirange
    cases w with
    | waiting a =>
      rw [hi] at hfi
      by_cases hp : s.permits > 0
      · simp only [hp, if_true] at hfi
        simp at hfi
      · exfalso
        have hrun0 : s.workers.countP wstat_is_running = 0 := by
          rw [List.countP_eq_zero]
          intro x hx
          obtain ⟨j, hj⟩ := List.mem_iff_get?.mp hx
          have hjr : j ∈ List.range s.workers.length := by
            rw [List.mem_range]
            exact List.get?_eq_some.mp hj |>.1
          have hfj := hnone j hjr
          rw [hj] at hfj
          cases x with
          | waiting b => simp [wstat_is_running]
          | running b => simp at hfj
          | done b => simp [wstat_is_running]
        have := hinv.2
        rw [running_count_eq_countP, hrun0] at this
        omega
    | running a =>
      rw [hi] at hfi
      simp at hfi
    | done a => exact ⟨a, rfl⟩
  constructor
  · unfold all_done
    rw [List.all_eq_true]
    intro w hw
    obtain ⟨a, rfl⟩ := hall w hw
    rfl
  · unfold pool_results
    rw [pool_results_of_all_done s.workers hall, ← pool_payloads_eq_map]
    exact hinv.1

lemma pool_init_inv {α : Type} (limit : Nat) (tasks : List α) :
    pool_inv limit tasks (pool_init limit tasks) := by
  constructor
  · rw [pool_payloads_eq_map]
    unfold pool_init
    simp only [List.map_map]
    rw [show (wstat_payload ∘ WStat.waiting : α → α) = id from rfl]
    exact List.map_id tasks
  · unfold pool_init
    rw [running_count_eq_countP]
    simp only
    rw [List.countP_eq_zero.mpr]
    · omega
    · intro x hx
      obtain ⟨a, _, rfl⟩ := List.mem_map.mp hx
      simp [wstat_is_running]

/-! ## C9: the concurrency limiter contract -/

/-- C9 counterexample: the legacy `run_async_tasks` in src/async_utils.py
wraps every task in `asyncio.Semaphore(limit)` even when `limit == 0`; with
one task the scheduler starts with no permit, every worker is blocked, no
step is possible, and no task is done — `gather` can never return, refuting
the claim that all operations execute to completion for every
`limit ≥ 0`. -/
theorem run_async_tasks_legacy_zero_limit_cex :
    run_async_tasks_legacy [0] 0 = Sum.inr (pool_init 0 [0]) ∧
    pool_steps (pool_init 0 ([0] : List Nat)) = [] ∧
    all_done (pool_init 0 ([0] : List Nat)) = false := by
  refine ⟨rfl, rfl, rfl⟩

/-- C9 amended: the `src/utils/async_utils.py` version honours the contract:
a negative limit is rejected, `limit == 0` runs a bare `gather` that returns
the `N` results in submission order, and for `limit > 0` every maximal
schedule of the semaphore-wrapped tasks ends with all workers done and the
results equal to the tasks in submission order.  The legacy
`src/async_utils.py` version deadlocks at `limit == 0` (see the
counterexample). -/
theorem run_async_tasks_utils_contract {α : Type} (tasks : List α)
    (limit : Int) :
    (limit = 0 → run_async_tasks_utils tasks limit
      = Except.ok (Sum.inl tasks)) ∧
    (0 < limit → tasks ≠ [] →
      run_async_tasks_utils tasks limit
          = Except.ok (Sum.inr (pool_init limit.toNat tasks)) ∧
        ∀ s' : PoolState α,
          Relation.ReflTransGen PoolStep (pool_init limit.toNat tasks) s' →
          pool_steps s' = [] →
          all_done s' = true ∧ pool_results s' = tasks) := by
  constructor
  · intro h0
    subst h0
    unfold run_async_tasks_utils
    rw [if_neg (by omega : ¬((0 : Int) < 0))]
    by_cases ht : tasks.isEmpty
    · rw [if_pos ht]
      rw [List.isEmpty_iff.mp ht]
    · rw [if_neg ht, if_neg (by omega : ¬((0 : Int) > 0))]
  · intro hpos hne
    constructor
    · unfold run_async_tasks_utils
      rw [if_neg (by omega : ¬(limit < 0)),
        if_neg (by simpa [List.isEmpty_iff] using hne), if_pos (by omega : limit > 0)]
    · intro s' hreach hstuck
      exact pool_stuck_all_done limit.toNat tasks s' hstuck
        (pool_reach_inv limit.toNat tasks _ s' hreach
          (pool_init_inv limit.toNat tasks))
        (by omega)

/-- C9 witness: the contract applied at one task and `limit = 1`, with the
stuck state reached after acquiring and finishing the single task. -/
theorem run_async_tasks_utils_contract_witness :
    run_async_tasks_utils [7] (1 : Int)
        = Except.ok (Sum.inr (pool_init 1 [7])) ∧
    (all_done (⟨1, [WStat.done 7]⟩ : PoolState Nat) = true ∧
      pool_results (⟨1, [WStat.done 7]⟩ : PoolState Nat) = [7]) :=
  ⟨((run_async_tasks_utils_contract [7] 1).2 (by omega) (by decide)).1,
   by
     have step1 : PoolStep (pool_init 1 [7]) ⟨0, [WStat.running 7]⟩ := by
       show _ ∈ pool_steps (pool_init 1 [7])
       decide
     have step2 : PoolStep (⟨0, [WStat.running 7]⟩ : PoolState Nat)
         ⟨1, [WStat.done 7]⟩ := by
       show _ ∈ pool_steps (⟨0, [WStat.running 7]⟩ : PoolState Nat)
       decide
     exact ((run_async_tasks_utils_contract [7] 1).2 (by omega) (by decide)).2
       ⟨1, [WStat.done 7]⟩
       (Relation.ReflTransGen.tail (Relation.ReflTransGen.single step1) step2)
       (by decide)⟩

/-! ## C8: markdown strategy fallbacks -/

/-- C8: under `PRIORITIZE_MD`, when the sibling `.md` HEAD request does not
return 200 (other status, or an exception), `_resolve_target_url` falls back
to the supplied URL, and `_fetch_single` still produces an artifact whenever
that URL's download succeeds with non-empty content (for any non-rendered
output type); under `ONLY_MD`, when the sibling's download fails (exception,
e.g. a 404 via `raise_for_status`) or comes back empty, no artifact is
produced. -/
theorem fetch_single_md_strategy (env : HttpEnv) (url destBase : String)
    (outputType : OutputType) (hot : outputType ≠ OutputType.PDF_RENDERED) :
    (env.head (md_url url) ≠ some 200 →
      resolve_target_url env MarkdownStrategy.PRIORITIZE_MD url
          = (url, false) ∧
      ∀ c, env.get url = some c → c ≠ "" →
        ∃ p, fetch_single env outputType MarkdownStrategy.PRIORITIZE_MD url
          destBase = some p) ∧
    ((env.get (md_url url) = none ∨ env.get (md_url url) = some "") →
      fetch_single env outputType MarkdownStrategy.ONLY_MD url destBase
        = none) := by
  constructor
  · intro hhead
    have hres : resolve_target_url env MarkdownStrategy.PRIORITIZE_MD url
        = (url, false) := by
      unfold resolve_target_url
      cases hh : env.head (md_url url) with
      | none => rfl
      | some code =>
        have hcode : code ≠ 200 := by
          intro h200
          exact hhead (by rw [hh, h200])
        simp [hcode]
    refine ⟨hres, ?_⟩
    intro c hget hne
    unfold fetch_single
    rw [hres]
    simp only
    rw [if_neg hot, hget]
    simp only [if_neg hne]
    cases outputType with
    | PDF_RENDERED => exact absurd rfl hot
    | PDF_TEXT => exact ⟨destBase ++ ".txt", by simp⟩
    | TXT => exact ⟨destBase ++ ".txt", by simp⟩
    | MARKDOWN => exact ⟨destBase ++ ".md", by simp⟩
  · intro hget
    unfold fetch_single
    have hres : resolve_target_url env MarkdownStrategy.ONLY_MD url
        = (md_url url, true) := rfl
    rw [hres]
    simp only
    rw [if_neg hot]
    rcases hget with hget | hget
    · rw [hget]
    · rw [hget]
      simp

/-- The network of the C8 witness: every HEAD yields 404, only the page URL
itself downloads, rendering always fails. -/
def c8_env : HttpEnv :=
  { head := fun _ => some 404
    get := fun u => if u = "https://a.test/p" then some "<html>x</html>" else none
    render := fun _ => false }

/-- C8 witness: on the concrete 404-for-`.md` network, `PRIORITIZE_MD`
resolves to the page URL and produces an artifact for TXT output, while
`ONLY_MD` produces none. -/
theorem fetch_single_md_strategy_witness :
    (resolve_target_url c8_env MarkdownStrategy.PRIORITIZE_MD
        "https://a.test/p" = ("https://a.test/p", false) ∧
      ∃ p, fetch_single c8_env OutputType.TXT MarkdownStrategy.PRIORITIZE_MD
        "https://a.test/p" "/tmp/chunk_00000" = some p) ∧
    fetch_single c8_env OutputType.TXT MarkdownStrategy.ONLY_MD
      "https://a.test/p" "/tmp/chunk_00000" = none :=
  ⟨⟨((fetch_single_md_strategy c8_env "https://a.test/p" "/tmp/chunk_00000"
        OutputType.TXT (by decide)).1 (by decide)).1,
    ((fetch_single_md_strategy c8_env "https://a.test/p" "/tmp/chunk_00000"
        OutputType.TXT (by decide)).1 (by decide)).2 "<html>x</html>"
      (by decide) (by decide)⟩,
   (fetch_single_md_strategy c8_env "https://a.test/p" "/tmp/chunk_00000"
      OutputType.TXT (by decide)).2 (Or.inl (by decide))⟩

end ContextScraper
